import Mathlib

/-!
Shallow embedding of `src/go-fetch-rss/go-fetch-rss.go` (package main).

The program fetches an RSS feed, filters its items by publish date, fetches
each matching item link with an HTTP client whose redirect policy stops at
redirect targets whose URL scheme equals the configured redirect file
extension, and writes either the downloaded body bytes or the captured
redirect URL to the output directory.

External effects (HTTP responses for each URL, the bytes io.ReadAll yields,
the channel xml.Unmarshal produces) are supplied by explicit world
parameters; the Go control flow over those results is embedded as total
functions. Machine integers do not overflow anywhere in the source, so
status codes, counts and bytes are plain naturals.
-/

namespace GoFetchRss

/-- Item mirrors the Go struct Item: title, guid, pubDate text and link. -/
structure Item where
  title : String
  guid : String
  publishDate : String
  link : String
deriving DecidableEq

/-- Channel mirrors the Go struct Channel: a title and an ordered item list. -/
structure Channel where
  title : String
  items : List Item
deriving DecidableEq

/-- Config holds the parsed command-line flags of main. -/
structure Config where
  url : String
  outputDir : String
  fileExtension : String
  redirectFileExtension : String
  targetDate : String
  dryRun : Bool
  verbose : Bool
deriving DecidableEq

/-! ### Model of time.Parse with the fixed layout "Mon, 2 Jan 2006 15:04:05 +0000"

In this layout the chunk "+0000" is literal text (Go layouts only recognise
numeric zones introduced by a minus sign or Z), so only inputs ending in
the literal " +0000" parse, the parsed time carries no zone and defaults to
UTC, and Format("2006-01-02") re-emits the parsed year, month and day.
The weekday name is validated for syntax but otherwise ignored, exactly as
in Go. Name matching is ASCII case-insensitive, as in the Go lookup function. -/

/-- ParsedTime is the result of parsing under the fixed layout: the six
numeric fields (zone is fixed to UTC by the literal +0000). -/
structure ParsedTime where
  year : Nat
  month : Nat
  day : Nat
  hour : Nat
  minute : Nat
  second : Nat
deriving DecidableEq

/-- asciiLower maps an ASCII upper-case letter to lower case, as the Go name matcher does with the 0x20 bit, and fixes every other character. -/
def asciiLower (c : Char) : Char :=
  if 65 ≤ c.toNat ∧ c.toNat ≤ 90 then Char.ofNat (c.toNat + 32) else c

/-- digitVal returns the value of an ASCII digit, none otherwise. -/
def digitVal (c : Char) : Option Nat :=
  if 48 ≤ c.toNat ∧ c.toNat ≤ 57 then some (c.toNat - 48) else none

/-- getnum2 models the getnum helper of the Go time package with fixed=false: one digit, or two
when a second digit follows. -/
def getnum2 : List Char → Option (Nat × List Char)
  | [] => none
  | [c] =>
    match digitVal c with
    | some d => some (d, [])
    | none => none
  | c1 :: c2 :: rest =>
    match digitVal c1, digitVal c2 with
    | some d1, some d2 => some (d1 * 10 + d2, rest)
    | some d1, none => some (d1, c2 :: rest)
    | none, _ => none

/-- getnumFixed2 models the getnum helper of the Go time package with fixed=true: exactly two digits. -/
def getnumFixed2 : List Char → Option (Nat × List Char)
  | c1 :: c2 :: rest =>
    match digitVal c1, digitVal c2 with
    | some d1, some d2 => some (d1 * 10 + d2, rest)
    | _, _ => none
  | _ => none

/-- getnum4 models the stdLongYear chunk: exactly four digits. -/
def getnum4 : List Char → Option (Nat × List Char)
  | c1 :: c2 :: c3 :: c4 :: rest =>
    match digitVal c1, digitVal c2, digitVal c3, digitVal c4 with
    | some d1, some d2, some d3, some d4 =>
      some (((d1 * 10 + d2) * 10 + d3) * 10 + d4, rest)
    | _, _, _, _ => none
  | _ => none

/-- nameMatch3 is the case-insensitive prefix match of the Go time package against a
three-letter name. -/
def nameMatch3 (name : String) (cs : List Char) : Bool :=
  decide ((cs.take 3).map asciiLower = name.toList.map asciiLower)
    && decide (3 ≤ cs.length)

/-- shortDayNames are the abbreviated weekday names of the Go time package. -/
def shortDayNames : List String :=
  ["Sun", "Mon", "Tue", "Wed", "Thu", "Fri", "Sat"]

/-- shortMonthNames are the abbreviated month names of the Go time package, January first. -/
def shortMonthNames : List String :=
  ["Jan", "Feb", "Mar", "Apr", "May", "Jun",
   "Jul", "Aug", "Sep", "Oct", "Nov", "Dec"]

/-- lookup3 models the lookup function of the Go time package over a table of three-letter names:
the index of the first match. -/
def lookup3 (names : List String) (cs : List Char) : Option Nat :=
  names.findIdx? (fun n => nameMatch3 n cs)

/-- cutspace models the cutspace helper of the Go time package: drop the
leading run of spaces. -/
def cutspace : List Char → List Char
  | [] => []
  | c :: rest => if c = ' ' then cutspace rest else c :: rest

/-- skipLit models the skip helper of the Go time package on a literal
layout chunk: a space in the layout matches a run of one or more spaces in
the value (and also an empty value, whose remainder stays empty), while
any other layout character must match the next value character exactly.
This is why ctime-style padded dates parse: the run of spaces before a
right-aligned day is consumed by the single literal space of the layout.
Go additionally collapses a run of spaces inside the layout literal
itself; the fixed layout used by the program contains no two adjacent
literal spaces, so that collapse is never exercised and is omitted here. -/
def skipLit : List Char → List Char → Option (List Char)
  | [], v => some v
  | p :: ps, v =>
    if p = ' ' then
      match v with
      | [] => skipLit ps []
      | c :: _ => if c = ' ' then skipLit ps (cutspace v) else none
    else
      match v with
      | [] => none
      | c :: cs => if p = c then skipLit ps cs else none

/-- isLeapYear is the leap-year rule of the Go time package. -/
def isLeapYear (y : Nat) : Bool :=
  y % 4 == 0 && (y % 100 != 0 || y % 400 == 0)

/-- daysIn gives the number of days of a month, as the daysIn function of the Go time package. -/
def daysIn (m y : Nat) : Nat :=
  if m = 2 then (if isLeapYear y then 29 else 28)
  else if m = 4 ∨ m = 6 ∨ m = 9 ∨ m = 11 then 30
  else 31

/-- timeParse models time.Parse("Mon, 2 Jan 2006 15:04:05 +0000", s):
weekday name (syntax only), the literal ", ", day (1-2 digits), a literal
space, month name, a literal space, four-digit year, a literal space,
hour (1-2 digits), ":", fixed two-digit minute, ":", fixed two-digit
second, then the literal " +0000" and end of input. Literal chunks are
matched with skipLit, so each layout space absorbs a run of input spaces
as Go does, and the hour, minute, second and day-of-month ranges are
checked as in Go. In this layout the chunk "+0000" is literal text, so
the parsed time carries no zone and defaults to UTC. -/
def timeParse (s : String) : Option ParsedTime := do
  let cs := s.toList
  let _ ← lookup3 shortDayNames cs
  let cs ← skipLit [',', ' '] (cs.drop 3)
  let (day, cs) ← getnum2 cs
  let cs ← skipLit [' '] cs
  let mIdx ← lookup3 shortMonthNames cs
  let month := mIdx + 1
  let cs ← skipLit [' '] (cs.drop 3)
  let (year, cs) ← getnum4 cs
  let cs ← skipLit [' '] cs
  let (hour, cs) ← getnum2 cs
  let cs ← skipLit [':'] cs
  let (minute, cs) ← getnumFixed2 cs
  let cs ← skipLit [':'] cs
  let (second, cs) ← getnumFixed2 cs
  let cs ← skipLit [' ', '+', '0', '0', '0', '0'] cs
  if cs = [] ∧ hour ≤ 23 ∧ minute ≤ 59 ∧ second ≤ 59
      ∧ 1 ≤ day ∧ day ≤ daysIn month year then
    some ⟨year, month, day, hour, minute, second⟩
  else
    none

/-- pad2 renders a field zero-padded to two digits, as appendInt in the Go time package. -/
def pad2 (n : Nat) : String :=
  if n < 10 then "0" ++ toString n else toString n

/-- pad4 renders the year zero-padded to four digits, as appendInt in the Go time package. -/
def pad4 (n : Nat) : String :=
  if n < 10 then "000" ++ toString n
  else if n < 100 then "00" ++ toString n
  else if n < 1000 then "0" ++ toString n
  else toString n

/-- formatDate2006 models t.Format("2006-01-02") on a time parsed under the
fixed layout: the parsed fields are re-emitted with no zone conversion,
since the parsed time is in UTC. -/
def formatDate2006 (t : ParsedTime) : String :=
  pad4 t.year ++ "-" ++ pad2 t.month ++ "-" ++ pad2 t.day

/-! ### Model of the HTTP world and the redirect-aware client -/

/-- URL models a parsed absolute URL as its scheme plus the remaining text;
URL.toText is url.URL.String(). -/
structure URL where
  scheme : String
  rest : String
deriving DecidableEq

/-- URL.toText is the absolute text form of the URL. -/
def URL.toText (u : URL) : String := u.scheme ++ ":" ++ u.rest

/-- FileContent distinguishes the two kinds of bytes the program writes:
raw body bytes, or the UTF-8 bytes of the text form of a URL. -/
inductive FileContent where
  | bytes (b : List Nat)
  | text (s : String)
deriving DecidableEq

/-- HResponse is one HTTP response as the program observes it: the status
code, the absolute Location target when a Location header is present (Go
resolves it against the request URL), the bytes io.ReadAll returns from the
body, and whether that read ended in an error (which the program ignores). -/
structure HResponse where
  status : Nat
  location : Option URL
  body : List Nat
  bodyReadErr : Bool
deriving DecidableEq

/-- isRedirectStatus lists the statuses the Go client follows for GET
requests (redirectBehavior). -/
def isRedirectStatus (s : Nat) : Bool :=
  s == 301 || s == 302 || s == 303 || s == 307 || s == 308

/-- GetResult models the (resp, err) pair client.Get returns: a transport
error with no response, an error from the custom CheckRedirect together
with the last (redirect) response, a response with nil error, or
divergence (the custom policy never enforces the default Go cap of ten redirects,
so an endless redirect chain never returns). -/
inductive GetResult where
  | transportError
  | stopped (resp : HResponse)
  | ok (resp : HResponse)
  | diverge
deriving DecidableEq

/-- clientGet models client.Get under the CheckRedirect hook of main: on a
redirect response whose Location scheme equals the redirect file
extension the hook returns an error, so client.Get returns the redirect
response together with that error; other redirects are followed; a 3xx
with no Location is returned as-is with nil error. The world maps each
text of each request URL to its response (none is a transport error); fuel bounds
the chain, with exhaustion marking nontermination. -/
def clientGet (world : String → Option HResponse) (redirExt : String) :
    Nat → String → GetResult
  | 0, _ => GetResult.diverge
  | Nat.succ fuel, url =>
    match world url with
    | none => GetResult.transportError
    | some resp =>
      if isRedirectStatus resp.status then
        match resp.location with
        | none => GetResult.ok resp
        | some loc =>
          if loc.scheme = redirExt then GetResult.stopped resp
          else clientGet world redirExt fuel (URL.toText loc)
      else GetResult.ok resp

/-! ### Per-item processing (body of the for loop in main) -/

/-- FileWrite records one os.WriteFile call: the output directory, the
file name passed to path.Join, and the written content. -/
structure FileWrite where
  dir : String
  name : String
  content : FileContent
deriving DecidableEq

/-- ItemOutcome is how one loop iteration ends: a date-parse error
(logged, continue), a date mismatch (skip), the dry-run skip, a captured
302 redirect (file written), a logged fetch error, a 200 download (file
written, then Done), an error-free non-200 response (no write, Done
printed), the nil-Location dereference that would panic in the 302 branch,
or divergence of the redirect chain. -/
inductive ItemOutcome where
  | parseError
  | dateMismatch
  | dryRunSkipped
  | redirectCaptured (target : URL)
  | fetchError
  | downloaded (body : List Nat) (readErr : Bool)
  | doneNoWrite (status : Nat)
  | panicNilLocation
  | diverge
deriving DecidableEq

/-- ItemResult couples the file write an iteration performs (if any) with
its outcome. -/
structure ItemResult where
  write : Option FileWrite
  outcome : ItemOutcome
deriving DecidableEq

/-- processItem is the body of the item loop in main: parse the publish
date under the fixed layout (failure: log and continue); compare the
formatted date with the target date (mismatch: skip); honour dry-run;
otherwise client.Get the link; on a non-nil error with a non-nil response
of status exactly 302 write the Location text to title.redirExt; on any
other non-nil error log and continue; on status 200 write the body bytes
read (any read error ignored) to title.fileExt; otherwise fall through
with no write. -/
def processItem (cfg : Config) (world : String → Option HResponse)
    (fuel : Nat) (item : Item) : ItemResult :=
  match timeParse item.publishDate with
  | none => ⟨none, ItemOutcome.parseError⟩
  | some t =>
    if cfg.targetDate ≠ formatDate2006 t then ⟨none, ItemOutcome.dateMismatch⟩
    else if cfg.dryRun then ⟨none, ItemOutcome.dryRunSkipped⟩
    else
      match clientGet world cfg.redirectFileExtension fuel item.link with
      | GetResult.diverge => ⟨none, ItemOutcome.diverge⟩
      | GetResult.stopped resp =>
        if resp.status = 302 then
          match resp.location with
          | some loc =>
            ⟨some ⟨cfg.outputDir,
                   item.title ++ "." ++ cfg.redirectFileExtension,
                   FileContent.text (URL.toText loc)⟩,
             ItemOutcome.redirectCaptured loc⟩
          | none => ⟨none, ItemOutcome.panicNilLocation⟩
        else ⟨none, ItemOutcome.fetchError⟩
      | GetResult.transportError => ⟨none, ItemOutcome.fetchError⟩
      | GetResult.ok resp =>
        if resp.status = 200 then
          ⟨some ⟨cfg.outputDir,
                 item.title ++ "." ++ cfg.fileExtension,
                 FileContent.bytes resp.body⟩,
           ItemOutcome.downloaded resp.body resp.bodyReadErr⟩
        else ⟨none, ItemOutcome.doneNoWrite resp.status⟩

/-- runItems runs the loop over the items in order; a diverging iteration
hangs the program, so later items are never reached (flag true). -/
def runItems (cfg : Config) (world : String → Option HResponse)
    (fuel : Nat) : List Item → List ItemResult × Bool
  | [] => ([], false)
  | item :: rest =>
    let r := processItem cfg world fuel item
    if r.outcome = ItemOutcome.diverge then ([], true)
    else
      let p := runItems cfg world fuel rest
      (r :: p.1, p.2)

/-- runWrites collects the files a list of item results writes. -/
def runWrites (rs : List ItemResult) : List FileWrite :=
  rs.filterMap (fun r => r.write)

/-! ### The run driver (main) -/

/-- FeedWorld supplies the externals of the run: the feed fetch result
(none is a transport error, in which case http.Get returns a nil response;
otherwise the status and the bytes io.ReadAll yields), the behaviour of
xml.Unmarshal on those bytes (the decoded, possibly zero-value or partial,
channel together with whether Unmarshal returned an error — the program
discards that error), and the per-URL responses for item fetches. -/
structure FeedWorld where
  feed : Option (Nat × List Nat)
  decode : List Nat → Channel × Bool
  itemGet : String → Option HResponse

/-- RunResult is how a whole run ends: missing url flag (error printed,
return), the nil-pointer dereference panic of res.StatusCode when the feed
fetch returns a transport error and a nil response, the printed error and
return on a non-200 feed status, or a completed pass over the decoded
items (with the hang flag of runItems). -/
inductive RunResult where
  | missingURL
  | panicNilResponse
  | feedFetchError (status : Nat)
  | completed (results : List ItemResult) (hung : Bool)
deriving DecidableEq

/-- runMain is main after flag parsing: require a url; http.Get it —
the code checks res.StatusCode before err, so a transport error (nil
response) is a nil dereference; on a non-200 status print and return;
otherwise read the body, xml.Unmarshal it discarding any error, and loop
over the items of the decoded channel. -/
def runMain (cfg : Config) (w : FeedWorld) (fuel : Nat) : RunResult :=
  if cfg.url = "" then RunResult.missingURL
  else
    match w.feed with
    | none => RunResult.panicNilResponse
    | some (status, body) =>
      if status ≠ 200 then RunResult.feedFetchError status
      else
        let ch := (w.decode body).1
        let p := runItems cfg w.itemGet fuel ch.items
        RunResult.completed p.1 p.2

/-! ### Helper lemmas -/

/-- cfgLive is a configuration with dry-run off, target date 2024-01-11,
extension file and redirect extension redirect. -/
def cfgLive : Config :=
  ⟨"http://feed", ".", "file", "redirect", "2024-01-11", false, false⟩

/-- itemA is a feed item published on 2024-01-11. -/
def itemA : Item :=
  ⟨"ItemA", "guid-a", "Thu, 11 Jan 2024 21:00:00 +0000", "http://link-a"⟩

/-- resp200 is a clean 200 response with body bytes 65, 66, 67. -/
def resp200 : HResponse := ⟨200, none, [65, 66, 67], false⟩

/-- w200 answers every URL with resp200. -/
def w200 : String → Option HResponse := fun _ => some resp200

/-- wDead answers every URL with a transport error. -/
def wDead : String → Option HResponse := fun _ => none

/-- chanA is a decoded channel holding only itemA. -/
def chanA : Channel := ⟨"Feed", [itemA]⟩

/-- feedWith builds a feed world that serves a 200 feed decoding to chanA
without a decode error, over the given item world. -/
def feedWith (g : String → Option HResponse) : FeedWorld :=
  ⟨some (200, [60]), fun _ => (chanA, false), g⟩

/-- fwNilResponse is a feed world whose feed fetch is a transport error,
so http.Get returns a nil response. -/
def fwNilResponse : FeedWorld :=
  ⟨none, fun _ => (⟨"", []⟩, false), wDead⟩

/-- fw500 is a feed world whose feed fetch returns status 500. -/
def fw500 : FeedWorld :=
  ⟨some (500, []), fun _ => (⟨"", []⟩, false), wDead⟩

/-- fwDecodeErr serves a 200 feed whose bytes fail to decode: xml.Unmarshal
reports an error and yields the partial channel chanA. -/
def fwDecodeErr : FeedWorld :=
  ⟨some (200, [60]), fun _ => (chanA, true), w200⟩

/-- C2: evaluating main at its two feed-failure modes shows the divergence
the claim rules out: a non-200 feed status reaches the error branch and
aborts cleanly with no item processed, but a transport-level feed error
leaves the response nil and the status-code check dereferences it — a
nil-pointer panic, not the safe error branch the claim asserts. -/
theorem c2_feed_failure_modes :
    runMain cfgLive fwNilResponse 10 = RunResult.panicNilResponse
    ∧ runMain cfgLive fw500 10 = RunResult.feedFetchError 500 :=
  ⟨rfl, rfl⟩

/-- C9: when the feed fetch succeeds with status 200, the run always
completes a normal pass over the items of whatever channel xml.Unmarshal
decoded — the decode error is discarded, so a decode failure is never a
distinguishable condition: any world with the same feed bytes, the same
item responses and the same decoded channel, whatever its decode-error
flag, produces the identical run result. -/
theorem c9_decode_error_swallowed (cfg : Config) (hurl : cfg.url ≠ "")
    (w : FeedWorld) (fuel : Nat) (body : List Nat)
    (hfeed : w.feed = some (200, body)) :
    runMain cfg w fuel =
      RunResult.completed
        (runItems cfg w.itemGet fuel ((w.decode body).1).items).1
        (runItems cfg w.itemGet fuel ((w.decode body).1).items).2 ∧
    ∀ w2 : FeedWorld, w2.feed = w.feed → w2.itemGet = w.itemGet →
      (w2.decode body).1 = (w.decode body).1 →
      runMain cfg w2 fuel = runMain cfg w fuel := by
  constructor
  · simp [runMain, hurl, hfeed]
  · intro w2 hf hg hdec
    simp [runMain, hurl, hf, hfeed, hg, hdec]

/-- C9, witness: a feed world whose decode reports an error still
completes the run over the partially decoded channel, with the same
result as the world whose decode succeeds on the same channel. -/
theorem c9_decode_error_swallowed_witness :
    runMain cfgLive fwDecodeErr 10 =
      RunResult.completed
        (runItems cfgLive fwDecodeErr.itemGet 10
          ((fwDecodeErr.decode [60]).1).items).1
        (runItems cfgLive fwDecodeErr.itemGet 10
          ((fwDecodeErr.decode [60]).1).items).2 ∧
    runMain cfgLive (feedWith w200) 10 = runMain cfgLive fwDecodeErr 10 :=
  ⟨(c9_decode_error_swallowed cfgLive (by decide) fwDecodeErr 10 [60] rfl).1,
   (c9_decode_error_swallowed cfgLive (by decide) fwDecodeErr 10 [60] rfl).2
     (feedWith w200) rfl rfl rfl⟩

end GoFetchRss
